import Mathlib

/-!
Verification of the job dispatch and parallel execution core of the
filemanager plugin (sources: src/unnamed/part_000 and src/src/webpackPlugin.js).

Shallow embedding conventions:
* job descriptors (`items`) are modelled as strings; `JSON.stringify(items)`
  becomes `stringifyItems` (a JSON-style list serialization; character escaping
  inside an item is elided since no claim depends on the escape function);
* JS options objects are the record `Opts` with `Option`-valued recognized keys
  (`none` = key absent) plus an opaque pass-through association list `extra`;
  `Object.assign({}, g, o)` becomes `mergeOpts g o` (per-key, `o` wins);
* the executor capability `commander[command](item, opts)` is an opaque
  behaviour `Beh : String → Item → Bool` deciding success of one call;
  every executor invocation and every progress update is recorded in a
  trace of events `Ev`, and a promise rejection is the boolean `false`
  in the result (fail-fast propagation);
* the module-wide cache `cacheSingle()` is an association list threaded
  through the orchestrator.
-/

namespace FileManagerPlugin

/-- Job descriptors are opaque serializable values; modelled as strings. -/
abbrev Item := String

/-- An options bag: the three recognized keys (absent = `none`) plus opaque
pass-through keys. -/
structure Opts where
  parallel : Option Nat := none
  cache : Option Bool := none
  progress : Option Bool := none
  extra : List (String × String) := []
deriving DecidableEq

/-- `Object.assign({}, globalOptions, options)`: per-key shallow merge, the
per-command options win key-by-key (for `extra`, lookup finds the
per-command binding first). -/
def mergeOpts (g o : Opts) : Opts where
  parallel := o.parallel <|> g.parallel
  cache := o.cache <|> g.cache
  progress := o.progress <|> g.progress
  extra := o.extra ++ g.extra

/-- JS truthiness of a possibly-absent numeric option (`if (parallel)`):
absent and `0` are falsy. -/
def natTruthy : Option Nat → Bool
  | some n => n != 0
  | none => false

/-- JS truthiness of a possibly-absent boolean option (`progress &&`). -/
def boolTruthy : Option Bool → Bool
  | some b => b
  | none => false

/-- The module-wide result cache `cacheSingle()`: command name ↦ fingerprint. -/
abbrev Cache := List (String × String)

/-- `cacheSingle()[command]` (most recent binding wins). -/
def cacheGet : Cache → String → Option String
  | [], _ => none
  | (k, v) :: rest, key => if key = k then some v else cacheGet rest key

/-- `cacheSingle()[command] = content`. -/
def cacheSet (c : Cache) (k v : String) : Cache := (k, v) :: c

/-- `JSON.stringify(items)` for a list of string items. -/
def stringifyItems (items : List Item) : String :=
  "[" ++ String.intercalate "," (items.map (fun s => "\"" ++ s ++ "\"")) ++ "]"

/-- `COMMAND_LIST = ['copy', 'move', 'del', 'zip', 'unzip', 'rename']`. -/
def COMMAND_LIST : List String := ["copy", "move", "del", "zip", "unzip", "rename"]

/-- One batch entry `{items, options}`; a missing field is `none`
(destructuring defaults apply). -/
structure Entry where
  items? : Option (List Item) := none
  options? : Option Opts := none
deriving DecidableEq

/-- A command batch: JS object iterated in insertion order of its keys; a
value can be null/undefined (`none`), which `commands[command] || {}`
replaces by an empty object. -/
abbrev Batch := List (String × Option Entry)

/-- `const { items = [] } = commands[command] || {}`. -/
def entryItems : Option Entry → List Item
  | none => []
  | some e => e.items?.getD []

/-- `const { options = {} } = commands[command] || {}`. -/
def entryOptions : Option Entry → Opts
  | none => {}
  | some e => e.options?.getD {}

/-- The executor capability: success/failure of `commander[command](item, _)`. -/
abbrev Beh := String → Item → Bool

/-- Observable events of one orchestrator run: an executor call, a delegation
to the parallel dispatcher (with its full argument list), or a progress
update `setSpeed n`. -/
inductive Ev where
  | exec (cmd : String) (item : Item) (opts : Opts)
  | cluster (cmd : String) (jobs : List Item) (cpu : Nat) (opts : Opts)
  | progressInc (n : Nat)
deriving DecidableEq

/-- The command name an event belongs to (progress events carry none). -/
def evCmd : Ev → String
  | .exec cmd _ _ => cmd
  | .cluster cmd _ _ _ => cmd
  | .progressInc _ => ""

/-- Whether an event is a delegation to the parallel dispatcher. -/
def evIsCluster : Ev → Bool
  | .cluster _ _ _ _ => true
  | _ => false

/-- Modelled from the spec: `masterCluster` (the Parallel Dispatcher, spec
§4.2) is required by both dispatch entry points but its source is not under
src/. Per the spec it partitions the jobs across workers, each worker runs
the executor for each job of its slice, the run fails if any worker reports
an executor failure, and on full success the aggregated completed count —
every job — is returned. Partitioning does not affect which jobs are
attempted or the success condition, so the observable result is: success
with count `jobs.length` iff every executor call succeeds. -/
def masterCluster (beh : Beh) (jobs : List Item) (cpu : Nat) (type : String)
    (opts : Opts) : Option Nat :=
  if jobs.all (fun j => beh type j) then some jobs.length else none

/-- The sequential loop of part_000 lines 40-42: invoke the executor for each
item in order, awaiting each; a failure rejects at once (the failing call is
in the trace, the remaining items are not attempted). -/
def runSeq (beh : Beh) (cmd : String) (opts : Opts) : List Item → List Ev × Bool
  | [] => ([], true)
  | i :: rest =>
    if beh cmd i then
      let r := runSeq beh cmd opts rest
      (Ev.exec cmd i opts :: r.1, r.2)
    else ([Ev.exec cmd i opts], false)

/-- The skip condition of part_000 lines 23-28:
`(optCache && cacheSingle()[command] === content) || items.length === 0`,
with `optCache` the merged `cache` flag defaulting to true and `content`
the fingerprint of the item list. -/
def shouldSkip (cache : Cache) (g : Opts) (cmd : String) (entry : Option Entry) : Bool :=
  let opts := mergeOpts g (entryOptions entry)
  let optCache := opts.cache.getD true
  let content := stringifyItems (entryItems entry)
  (optCache && (cacheGet cache cmd == some content)) || ((entryItems entry).length == 0)

/-- Dispatch of one recognized, non-skipped command (part_000 lines 30-44):
parallel path when the GLOBAL `parallel` is truthy (line 22 reads it from
`globalOptions`, not from the merged options), else the sequential loop;
on success the cache entry is written (when the merged cache flag is on,
line 44); on failure the cache is left untouched and the rejection
propagates. -/
def dispatchOne (beh : Beh) (g : Opts) (cmd : String) (entry : Option Entry)
    (cache : Cache) : List Ev × Cache × Bool :=
  let items := entryItems entry
  let opts := mergeOpts g (entryOptions entry)
  let optCache := opts.cache.getD true
  let content := stringifyItems items
  if natTruthy g.parallel then
    match masterCluster beh items (g.parallel.getD 0) cmd opts with
    | some _ =>
      ([Ev.cluster cmd items (g.parallel.getD 0) opts],
        (if optCache then cacheSet cache cmd content else cache), true)
    | none => ([Ev.cluster cmd items (g.parallel.getD 0) opts], cache, false)
  else
    match runSeq beh cmd opts items with
    | (tr, true) => (tr, (if optCache then cacheSet cache cmd content else cache), true)
    | (tr, false) => (tr, cache, false)

/-- The orchestrator `handleCommand(commands, globalOptions)` of part_000:
iterate the batch in key order, filter unrecognized command names, apply the
skip condition, dispatch, write the cache only after a fully successful
dispatch, and propagate the first rejection (no later command runs).
Result: (event trace, final cache, overall success). -/
def handleCommand (beh : Beh) : Batch → Opts → Cache → List Ev × Cache × Bool
  | [], _, cache => ([], cache, true)
  | (cmd, entry) :: rest, g, cache =>
    if cmd ∈ COMMAND_LIST then
      if shouldSkip cache g cmd entry then
        handleCommand beh rest g cache
      else
        let r := dispatchOne beh g cmd entry cache
        if r.2.2 then
          let r' := handleCommand beh rest g r.2.1
          (r.1 ++ r'.1, r'.2.1, r'.2.2)
        else (r.1, r.2.1, false)
    else handleCommand beh rest g cache

/-- An executor behaviour that always succeeds. -/
def behTrue : Beh := fun _ _ => true

/-! The webpack plugin layer (src/src/webpackPlugin.js): its own `handleCommand`
(no cache, progress updates), `countTotalTasks`, `translateHooks` and the
constructor. Its batches carry plain `{items, options}` objects (no `|| {}`
guard here). -/

/-- A webpack-plugin batch: command name ↦ `{items, options}` object. -/
abbrev WpBatch := List (String × Entry)

/-- The sequential loop of webpackPlugin.js lines 59-62: executor call for
each item in order, then `progress && this.progress.setSpeed(1)` after each
completed item; a failure rejects before its progress update. -/
def wpRunSeq (beh : Beh) (progressOn : Bool) (cmd : String) (opts : Opts) :
    List Item → List Ev × Bool
  | [] => ([], true)
  | i :: rest =>
    if beh cmd i then
      let r := wpRunSeq beh progressOn cmd opts rest
      ((Ev.exec cmd i opts :: (if progressOn then [Ev.progressInc 1] else [])) ++ r.1, r.2)
    else ([Ev.exec cmd i opts], false)

/-- `handleCommand(commands)` of webpackPlugin.js lines 41-66, with the global
options (`this.options.options`) passed explicitly: filter unrecognized
commands, merge options, read `progress` and `parallel` from the GLOBAL
options (line 47), then either delegate to `masterCluster` and do one
`setSpeed(completedNum)` after it returns, or run the sequential loop.
No cache is consulted or written on this path. -/
def wpHandleCommand (beh : Beh) (g : Opts) : WpBatch → List Ev × Bool
  | [] => ([], true)
  | (cmd, entry) :: rest =>
    if cmd ∈ COMMAND_LIST then
      let items := entry.items?.getD []
      let opts := mergeOpts g (entry.options?.getD {})
      let progressOn := boolTruthy g.progress
      let r :=
        if natTruthy g.parallel then
          match masterCluster beh items (g.parallel.getD 0) cmd opts with
          | some n =>
            (Ev.cluster cmd items (g.parallel.getD 0) opts ::
              (if progressOn then [Ev.progressInc n] else []), true)
          | none => ([Ev.cluster cmd items (g.parallel.getD 0) opts], false)
        else wpRunSeq beh progressOn cmd opts items
      if r.2 then
        let r' := wpHandleCommand beh g rest
        (r.1 ++ r'.1, r'.2)
      else (r.1, false)
    else wpHandleCommand beh g rest

/-- One translated hook item (the shape documented at webpackPlugin.js
lines 96-112); `registerName` is `none` when absent. -/
structure HookItem where
  hookType : String := ""
  hookName : String := ""
  registerName : Option String := none
  commands : WpBatch := []
deriving DecidableEq

/-- The plugin options object: `options` (global options), `events`
(event name ↦ commands object, possibly falsy), `customHooks`. -/
structure PluginOptions where
  options : Option Opts := none
  events : List (String × Option WpBatch) := []
  customHooks : List HookItem := []
deriving DecidableEq

/-- A JS constructor argument as classified by
`Object.prototype.toString.call(opts)`: only a plain object yields
`'[object Object]'`. -/
inductive JSVal where
  | undef
  | jsNull
  | str (s : String)
  | arr
  | func
  | obj (o : PluginOptions)
deriving DecidableEq

/-- Whether `Object.prototype.toString.call(v) === '[object Object]'`. -/
def isPlainObject : JSVal → Bool
  | .obj _ => true
  | _ => false

/-- The constructor (webpackPlugin.js lines 24-34): `this.options = {}`,
overwritten by the argument only when it is a plain object. -/
def webpackPluginInit (opts : JSVal) : PluginOptions :=
  match opts with
  | .obj o => o
  | _ => {}

/-- The keys of `this.hookTypesMap` (webpackPlugin.js lines 29-33). -/
def supportedHookTypes : List String := ["tap", "tapPromise", "tapAsync"]

/-- `BUILTIN_EVENT_NAMES = Object.keys(BUILTIN_EVENTS_MAP)`. -/
def BUILTIN_EVENT_NAMES : List String := ["start", "end"]

/-- `BUILTIN_EVENTS_MAP`: event name ↦ (hookType, hookName, registerName). -/
def BUILTIN_EVENTS_MAP (event : String) : Option (String × String × String) :=
  if event = "start" then some ("tapAsync", "beforeRun", "REGISTER_" ++ "beforeRun")
  else if event = "end" then some ("tapAsync", "afterEmit", "REGISTER_" ++ "afterEmit")
  else none

/-- `translateHooks()` (webpackPlugin.js lines 114-146): when custom hooks are
given, default each missing `registerName`; otherwise translate the
recognized, non-falsy builtin events in insertion order. -/
def translateHooks (p : PluginOptions) : List HookItem :=
  if p.customHooks.length > 0 then
    p.customHooks.map (fun hook =>
      if hook.registerName = none then
        { hook with registerName := some ("REGISTER_" ++ hook.hookName) }
      else hook)
  else
    p.events.filterMap (fun ev =>
      if ev.1 ∈ BUILTIN_EVENT_NAMES then
        match ev.2, BUILTIN_EVENTS_MAP ev.1 with
        | some commands, some (ht, hn, rn) =>
          some { hookType := ht, hookName := hn, registerName := some rn,
                 commands := commands }
        | _, _ => none
      else none)

/-- The inner loop of `countTotalTasks`: sum of `items.length` over the
recognized commands of one commands object. -/
def commandsTaskCount : WpBatch → Nat
  | [] => 0
  | (cmd, e) :: rest =>
    (if cmd ∈ COMMAND_LIST then (e.items?.getD []).length else 0) +
      commandsTaskCount rest

/-- `countTotalTasks(options)` (webpackPlugin.js lines 73-90): over the hook
items whose `hookType` is supported, sum the item counts of all recognized
commands. -/
def countTotalTasks : List HookItem → Nat
  | [] => 0
  | h :: rest =>
    (if h.hookType ∈ supportedHookTypes then commandsTaskCount h.commands else 0) +
      countTotalTasks rest

/-- The progress total as the claim's words describe it: the sum of item
counts across eligible commands (recognized name, supported hook type) that
would NOT be skipped — skip being the cache-hit-or-empty condition of the
orchestrator — so that skipped commands contribute nothing. Stated for
comparison with `countTotalTasks`, which is what the code computes. -/
def claimNonSkippedTotal (cache : Cache) (g : Opts) : List HookItem → Nat
  | [] => 0
  | h :: rest =>
    (if h.hookType ∈ supportedHookTypes then
      (h.commands.map (fun ce =>
        if ce.1 ∈ COMMAND_LIST && !(shouldSkip cache g ce.1 (some ce.2)) then
          (ce.2.items?.getD []).length
        else 0)).sum
    else 0) + claimNonSkippedTotal cache g rest

/-! Helper lemmas. -/

/-- Unfolding of one orchestrator step. -/
theorem handleCommand_cons (beh : Beh) (g : Opts) (cache : Cache) (cmd : String)
    (entry : Option Entry) (rest : Batch) :
    handleCommand beh ((cmd, entry) :: rest) g cache =
      if cmd ∈ COMMAND_LIST then
        if shouldSkip cache g cmd entry then
          handleCommand beh rest g cache
        else
          let r := dispatchOne beh g cmd entry cache
          if r.2.2 then
            let r' := handleCommand beh rest g r.2.1
            (r.1 ++ r'.1, r'.2.1, r'.2.2)
          else (r.1, r.2.1, false)
      else handleCommand beh rest g cache := by
  rw [handleCommand]

/-- A cache read after a write to a different key. -/
theorem cacheGet_set_ne (c : Cache) (cmd v k : String) (h : k ≠ cmd) :
    cacheGet (cacheSet c cmd v) k = cacheGet c k := by
  simp [cacheSet, cacheGet, h]

/-- A cache read after a write to the same key. -/
theorem cacheGet_set_self (c : Cache) (cmd v : String) :
    cacheGet (cacheSet c cmd v) cmd = some v := by
  simp [cacheSet, cacheGet]

/-- The sequential loop on an all-succeeding item list: one executor call per
item, in list order. -/
theorem runSeq_all_true (beh : Beh) (cmd : String) (opts : Opts) (items : List Item)
    (h : ∀ i ∈ items, beh cmd i = true) :
    runSeq beh cmd opts items = (items.map (fun i => Ev.exec cmd i opts), true) := by
  induction items with
  | nil => rfl
  | cons i rest ih =>
    have hi : beh cmd i = true := h i (List.mem_cons_self i rest)
    have hrest : ∀ j ∈ rest, beh cmd j = true := fun j hj => h j (List.mem_cons_of_mem i hj)
    simp [runSeq, hi, ih hrest]

/-- The sequential loop stops at the first failing item: the calls before it
and the failing call are in the trace, nothing after. -/
theorem runSeq_fail (beh : Beh) (cmd : String) (opts : Opts) (pre : List Item)
    (bad : Item) (post : List Item) (hpre : ∀ i ∈ pre, beh cmd i = true)
    (hbad : beh cmd bad = false) :
    runSeq beh cmd opts (pre ++ bad :: post) =
      (pre.map (fun i => Ev.exec cmd i opts) ++ [Ev.exec cmd bad opts], false) := by
  induction pre with
  | nil => simp [runSeq, hbad]
  | cons i rest ih =>
    have hi : beh cmd i = true := hpre i (List.mem_cons_self i rest)
    have hrest : ∀ j ∈ rest, beh cmd j = true := fun j hj => hpre j (List.mem_cons_of_mem i hj)
    simp [runSeq, hi, ih hrest]

/-- The skip condition, spelled out as a proposition. -/
theorem shouldSkip_iff (cache : Cache) (g : Opts) (cmd : String) (entry : Option Entry) :
    shouldSkip cache g cmd entry = true ↔
      (((mergeOpts g (entryOptions entry)).cache.getD true = true ∧
        cacheGet cache cmd = some (stringifyItems (entryItems entry))) ∨
       entryItems entry = []) := by
  simp [shouldSkip, List.length_eq_zero]

/-- The cache produced by one dispatch is either untouched or the single write
of this command's fingerprint. -/
theorem dispatchOne_cache (beh : Beh) (g : Opts) (cmd : String) (entry : Option Entry)
    (cache : Cache) :
    (dispatchOne beh g cmd entry cache).2.1 = cache ∨
      (dispatchOne beh g cmd entry cache).2.1 =
        cacheSet cache cmd (stringifyItems (entryItems entry)) := by
  unfold dispatchOne
  dsimp only
  split
  · split
    · split
      · right; rfl
      · left; rfl
    · left; rfl
  · split
    · split
      · right; rfl
      · left; rfl
    · left; rfl

/-- On a failed dispatch the cache is returned untouched. -/
theorem dispatchOne_fail_cache (beh : Beh) (g : Opts) (cmd : String)
    (entry : Option Entry) (cache : Cache)
    (h : (dispatchOne beh g cmd entry cache).2.2 = false) :
    (dispatchOne beh g cmd entry cache).2.1 = cache := by
  revert h
  unfold dispatchOne
  dsimp only
  split
  · split
    · split <;> simp
    · simp
  · split
    · split <;> simp
    · simp

/-- On a successful dispatch with the merged cache flag on, the cache is
exactly the prior cache extended with this command's fingerprint. -/
theorem dispatchOne_success_cache (beh : Beh) (g : Opts) (cmd : String)
    (entry : Option Entry) (cache : Cache)
    (hflag : (mergeOpts g (entryOptions entry)).cache.getD true = true)
    (h : (dispatchOne beh g cmd entry cache).2.2 = true) :
    (dispatchOne beh g cmd entry cache).2.1 =
      cacheSet cache cmd (stringifyItems (entryItems entry)) := by
  revert h
  unfold dispatchOne
  dsimp only
  split
  · split
    · simp [hflag]
    · simp
  · split
    · simp [hflag]
    · simp

/-- The orchestrator never touches cache entries of commands outside the
batch's key set. -/
theorem handleCommand_cache_untouched (beh : Beh) (b : Batch) (g : Opts)
    (cache : Cache) (k : String) (hk : k ∉ b.map Prod.fst) :
    cacheGet (handleCommand beh b g cache).2.1 k = cacheGet cache k := by
  induction b generalizing cache with
  | nil => rfl
  | cons p rest ih =>
    rcases p with ⟨cmd, entry⟩
    have hkcmd : k ≠ cmd := by
      intro h; exact hk (by simp [h])
    have hkrest : k ∉ rest.map Prod.fst := by
      intro h; exact hk (by simp [h])
    rw [handleCommand_cons]
    split
    · split
      · exact ih cache hkrest
      · dsimp only
        cases hc : (dispatchOne beh g cmd entry cache).2.2 with
        | false =>
          rw [if_neg Bool.false_ne_true]
          dsimp only
          rcases dispatchOne_cache beh g cmd entry cache with h1 | h1
          · rw [h1]
          · rw [h1, cacheGet_set_ne _ _ _ _ hkcmd]
        | true =>
          rw [if_pos rfl]
          dsimp only
          rw [ih _ hkrest]
          rcases dispatchOne_cache beh g cmd entry cache with h1 | h1
          · rw [h1]
          · rw [h1, cacheGet_set_ne _ _ _ _ hkcmd]
    · exact ih cache hkrest

/-- When every recognized command of the batch satisfies the skip condition,
the orchestrator does nothing: empty trace, untouched cache, success. -/
theorem handleCommand_all_skip (beh : Beh) (b : Batch) (g : Opts) (cache : Cache)
    (h : ∀ p ∈ b, p.1 ∈ COMMAND_LIST → shouldSkip cache g p.1 p.2 = true) :
    handleCommand beh b g cache = ([], cache, true) := by
  induction b with
  | nil => rfl
  | cons p rest ih =>
    rcases p with ⟨cmd, entry⟩
    have hrest : ∀ q ∈ rest, q.1 ∈ COMMAND_LIST → shouldSkip cache g q.1 q.2 = true :=
      fun q hq => h q (List.mem_cons_of_mem _ hq)
    rw [handleCommand_cons]
    split
    · rename_i hcmd
      rw [if_pos (h (cmd, entry) (List.mem_cons_self _ _) hcmd)]
      exact ih hrest
    · exact ih hrest

/-- After a fully successful run in which every recognized command has its
merged cache flag on and the batch keys are distinct, every recognized
command of the batch is either empty or fingerprint-cached in the final
cache. -/
theorem handleCommand_success_cached (beh : Beh) (b : Batch) (g : Opts) (cache : Cache)
    (hnodup : (b.map Prod.fst).Nodup)
    (hflags : ∀ p ∈ b, (mergeOpts g (entryOptions p.2)).cache.getD true = true)
    (hok : (handleCommand beh b g cache).2.2 = true) :
    ∀ p ∈ b, p.1 ∈ COMMAND_LIST →
      (entryItems p.2 = [] ∨
        cacheGet (handleCommand beh b g cache).2.1 p.1 =
          some (stringifyItems (entryItems p.2))) := by
  induction b generalizing cache with
  | nil => intro p hp; exact absurd hp (List.not_mem_nil p)
  | cons q rest ih =>
    rcases q with ⟨cmd, entry⟩
    have hnodup' : (rest.map Prod.fst).Nodup := (List.nodup_cons.mp hnodup).2
    have hcmdrest : cmd ∉ rest.map Prod.fst := (List.nodup_cons.mp hnodup).1
    have hflags' : ∀ p ∈ rest, (mergeOpts g (entryOptions p.2)).cache.getD true = true :=
      fun p hp => hflags p (List.mem_cons_of_mem _ hp)
    intro p hp hpcmd
    rw [handleCommand_cons] at hok ⊢
    by_cases hcmd : cmd ∈ COMMAND_LIST
    · rw [if_pos hcmd] at hok ⊢
      by_cases hskip : shouldSkip cache g cmd entry = true
      · rw [if_pos hskip] at hok ⊢
        rcases List.mem_cons.mp hp with hphead | hptail
        · subst hphead
          rcases (shouldSkip_iff cache g cmd entry).mp hskip with ⟨_, hhit⟩ | hempty
          · right
            rw [handleCommand_cache_untouched beh rest g cache cmd hcmdrest]
            exact hhit
          · exact Or.inl hempty
        · exact ih cache hnodup' hflags' hok p hptail hpcmd
      · rw [if_neg hskip] at hok ⊢
        dsimp only at hok ⊢
        cases hd : (dispatchOne beh g cmd entry cache).2.2 with
        | false =>
          rw [hd, if_neg Bool.false_ne_true] at hok
          exact absurd hok Bool.false_ne_true
        | true =>
          rw [hd] at hok
          rw [if_pos rfl] at hok ⊢
          dsimp only at hok ⊢
          have hdc : (dispatchOne beh g cmd entry cache).2.1 =
              cacheSet cache cmd (stringifyItems (entryItems entry)) :=
            dispatchOne_success_cache beh g cmd entry cache
              (hflags (cmd, entry) (List.mem_cons_self _ _)) hd
          rcases List.mem_cons.mp hp with hphead | hptail
          · subst hphead
            right
            rw [handleCommand_cache_untouched beh rest g _ cmd hcmdrest, hdc,
              cacheGet_set_self]
          · exact ih _ hnodup' hflags' hok p hptail hpcmd
    · rw [if_neg hcmd] at hok ⊢
      rcases List.mem_cons.mp hp with hphead | hptail
      · subst hphead; exact absurd hpcmd hcmd
      · exact ih cache hnodup' hflags' hok p hptail hpcmd

/-- In sequential mode the dispatch trace is the sequential loop's trace. -/
theorem dispatchOne_seq_trace (beh : Beh) (g : Opts) (cmd : String)
    (entry : Option Entry) (cache : Cache) (hp : natTruthy g.parallel = false) :
    (dispatchOne beh g cmd entry cache).1 =
      (runSeq beh cmd (mergeOpts g (entryOptions entry)) (entryItems entry)).1 := by
  unfold dispatchOne
  dsimp only
  rw [hp, if_neg Bool.false_ne_true]
  rcases hr : runSeq beh cmd (mergeOpts g (entryOptions entry)) (entryItems entry)
    with ⟨tr, ok⟩
  cases ok <;> rfl

/-- In parallel mode the dispatch trace is the single delegation to the
parallel dispatcher, carrying the full item list, the global worker-count
and the command name. -/
theorem dispatchOne_par_trace (beh : Beh) (g : Opts) (cmd : String)
    (entry : Option Entry) (cache : Cache) (hp : natTruthy g.parallel = true) :
    (dispatchOne beh g cmd entry cache).1 =
      [Ev.cluster cmd (entryItems entry) (g.parallel.getD 0)
        (mergeOpts g (entryOptions entry))] := by
  unfold dispatchOne
  dsimp only
  rw [hp, if_pos rfl]
  rcases hm : masterCluster beh (entryItems entry) (g.parallel.getD 0) cmd
    (mergeOpts g (entryOptions entry)) with _ | n <;> rfl

/-- Sequential dispatch on an all-succeeding item list: one executor call
per item in list order, cache written exactly when the merged flag is on. -/
theorem dispatchOne_seq_success (beh : Beh) (g : Opts) (cmd : String)
    (entry : Option Entry) (cache : Cache) (hp : natTruthy g.parallel = false)
    (hall : ∀ i ∈ entryItems entry, beh cmd i = true) :
    dispatchOne beh g cmd entry cache =
      ((entryItems entry).map (fun i => Ev.exec cmd i (mergeOpts g (entryOptions entry))),
       (if (mergeOpts g (entryOptions entry)).cache.getD true then
          cacheSet cache cmd (stringifyItems (entryItems entry)) else cache), true) := by
  unfold dispatchOne
  dsimp only
  rw [hp, if_neg Bool.false_ne_true, runSeq_all_true beh cmd _ _ hall]

/-- Sequential dispatch failing at `bad`: the items before it and the failing
call are traced, nothing after, the cache comes back untouched and the
failure propagates. -/
theorem dispatchOne_seq_fail (beh : Beh) (g : Opts) (cmd : String)
    (entry : Option Entry) (cache : Cache) (pre : List Item) (bad : Item)
    (post : List Item) (hp : natTruthy g.parallel = false)
    (hitems : entryItems entry = pre ++ bad :: post)
    (hpre : ∀ i ∈ pre, beh cmd i = true) (hbad : beh cmd bad = false) :
    dispatchOne beh g cmd entry cache =
      (pre.map (fun i => Ev.exec cmd i (mergeOpts g (entryOptions entry))) ++
        [Ev.exec cmd bad (mergeOpts g (entryOptions entry))], cache, false) := by
  unfold dispatchOne
  dsimp only
  rw [hp, if_neg Bool.false_ne_true, hitems, runSeq_fail beh cmd _ pre bad post hpre hbad]

/-- Parallel dispatch on an all-succeeding item list. -/
theorem dispatchOne_par_success (beh : Beh) (g : Opts) (cmd : String)
    (entry : Option Entry) (cache : Cache) (hp : natTruthy g.parallel = true)
    (hall : ∀ i ∈ entryItems entry, beh cmd i = true) :
    dispatchOne beh g cmd entry cache =
      ([Ev.cluster cmd (entryItems entry) (g.parallel.getD 0)
          (mergeOpts g (entryOptions entry))],
       (if (mergeOpts g (entryOptions entry)).cache.getD true then
          cacheSet cache cmd (stringifyItems (entryItems entry)) else cache), true) := by
  unfold dispatchOne
  dsimp only
  rw [hp, if_pos rfl]
  have hm : masterCluster beh (entryItems entry) (g.parallel.getD 0) cmd
      (mergeOpts g (entryOptions entry)) = some (entryItems entry).length := by
    unfold masterCluster
    rw [if_pos (List.all_eq_true.mpr hall)]
  rw [hm]

/-- Parallel dispatch with a failing item: delegation traced, cache
untouched, failure propagated. -/
theorem dispatchOne_par_fail (beh : Beh) (g : Opts) (cmd : String)
    (entry : Option Entry) (cache : Cache) (hp : natTruthy g.parallel = true)
    (hex : ∃ i ∈ entryItems entry, beh cmd i = false) :
    dispatchOne beh g cmd entry cache =
      ([Ev.cluster cmd (entryItems entry) (g.parallel.getD 0)
          (mergeOpts g (entryOptions entry))], cache, false) := by
  unfold dispatchOne
  dsimp only
  rw [hp, if_pos rfl]
  have hm : masterCluster beh (entryItems entry) (g.parallel.getD 0) cmd
      (mergeOpts g (entryOptions entry)) = none := by
    unfold masterCluster
    rw [if_neg]
    intro hall
    rcases hex with ⟨i, hi, hfail⟩
    rw [List.all_eq_true.mp hall i hi] at hfail
    exact absurd hfail (by simp)
  rw [hm]

/-- The trace of a recognized, non-skipped command starts with its own
dispatch trace. -/
theorem handleCommand_cons_unskipped_trace (beh : Beh) (g : Opts) (cache : Cache)
    (cmd : String) (entry : Option Entry) (rest : Batch)
    (hc : cmd ∈ COMMAND_LIST) (hns : shouldSkip cache g cmd entry = false) :
    ∃ tl, (handleCommand beh ((cmd, entry) :: rest) g cache).1 =
      (dispatchOne beh g cmd entry cache).1 ++ tl := by
  rw [handleCommand_cons, if_pos hc, if_neg (by rw [hns]; exact Bool.false_ne_true)]
  dsimp only
  cases hd : (dispatchOne beh g cmd entry cache).2.2 with
  | false =>
    rw [if_neg Bool.false_ne_true]
    exact ⟨[], (List.append_nil _).symm⟩
  | true =>
    rw [if_pos rfl]
    exact ⟨(handleCommand beh rest g (dispatchOne beh g cmd entry cache).2.1).1, rfl⟩

/-- The sequential loop's trace on a non-empty list starts with the executor
call for the first item. -/
theorem runSeq_cons_head (beh : Beh) (cmd : String) (opts : Opts) (i : Item)
    (rest : List Item) :
    ∃ tl, (runSeq beh cmd opts (i :: rest)).1 = Ev.exec cmd i opts :: tl := by
  rw [runSeq]
  cases beh cmd i with
  | false => exact ⟨[], by rw [if_neg Bool.false_ne_true]⟩
  | true => exact ⟨(runSeq beh cmd opts rest).1, by rw [if_pos rfl]⟩

/-- Unfolding of one webpack-plugin dispatch step. -/
theorem wpHandleCommand_cons (beh : Beh) (g : Opts) (cmd : String) (entry : Entry)
    (rest : WpBatch) :
    wpHandleCommand beh g ((cmd, entry) :: rest) =
      if cmd ∈ COMMAND_LIST then
        let items := entry.items?.getD []
        let opts := mergeOpts g (entry.options?.getD {})
        let progressOn := boolTruthy g.progress
        let r :=
          if natTruthy g.parallel then
            match masterCluster beh items (g.parallel.getD 0) cmd opts with
            | some n =>
              (Ev.cluster cmd items (g.parallel.getD 0) opts ::
                (if progressOn then [Ev.progressInc n] else []), true)
            | none => ([Ev.cluster cmd items (g.parallel.getD 0) opts], false)
          else wpRunSeq beh progressOn cmd opts items
        if r.2 then
          let r' := wpHandleCommand beh g rest
          (r.1 ++ r'.1, r'.2)
        else (r.1, false)
      else wpHandleCommand beh g rest := by
  rw [wpHandleCommand]

/-- The webpack-plugin sequential loop on an all-succeeding item list: an
executor call per item in order, each followed by its progress update when
progress is on. -/
theorem wpRunSeq_all_true (beh : Beh) (progressOn : Bool) (cmd : String)
    (opts : Opts) (items : List Item) (h : ∀ i ∈ items, beh cmd i = true) :
    wpRunSeq beh progressOn cmd opts items =
      (items.flatMap (fun i => Ev.exec cmd i opts ::
        (if progressOn then [Ev.progressInc 1] else [])), true) := by
  induction items with
  | nil => rfl
  | cons i rest ih =>
    have hi : beh cmd i = true := h i (List.mem_cons_self i rest)
    have hrest : ∀ j ∈ rest, beh cmd j = true := fun j hj => h j (List.mem_cons_of_mem i hj)
    rw [wpRunSeq, if_pos hi, ih hrest]
    dsimp only
    rw [List.flatMap_cons]

/-! Claim theorems. -/

/-- C8: a batch entry whose key is not one of the six recognized command
names is simply ignored by both dispatch entry points: the run is the run of
the remaining batch — no executor call, no cache read or write, no progress
change, no error for that entry. -/
theorem C8_unknown_command_ignored (beh : Beh) (g : Opts) (cache : Cache)
    (cmd : String) (entry : Option Entry) (rest : Batch)
    (wcmd : String) (wentry : Entry) (wrest : WpBatch)
    (hc : cmd ∉ COMMAND_LIST) (hw : wcmd ∉ COMMAND_LIST) :
    handleCommand beh ((cmd, entry) :: rest) g cache = handleCommand beh rest g cache ∧
    wpHandleCommand beh g ((wcmd, wentry) :: wrest) = wpHandleCommand beh g wrest := by
  constructor
  · rw [handleCommand_cons, if_neg hc]
  · rw [wpHandleCommand_cons, if_neg hw]

/-- Witness for C8 at the unrecognized key "mkdir". -/
theorem C8_unknown_command_ignored_witness :
    ("mkdir" ∉ COMMAND_LIST) ∧
    (handleCommand behTrue [("mkdir", some { items? := some ["a"], options? := none })] {} [] =
      handleCommand behTrue [] {} [] ∧
     wpHandleCommand behTrue {} [("mkdir", { items? := some ["a"], options? := none })] =
      wpHandleCommand behTrue {} []) :=
  ⟨by decide,
   C8_unknown_command_ignored behTrue {} [] "mkdir"
     (some { items? := some ["a"], options? := none }) [] "mkdir"
     { items? := some ["a"], options? := none } [] (by decide) (by decide)⟩

/-- C9: a constructor argument that is not a plain object is replaced by the
empty options object, and the later operations then work on defaults:
`translateHooks` yields no hook items, `countTotalTasks` of them is 0, and
the extracted global options are empty. -/
theorem C9_nonobject_constructor_defaults (v : JSVal) (h : isPlainObject v = false) :
    webpackPluginInit v = ({} : PluginOptions) ∧
    webpackPluginInit v = webpackPluginInit (JSVal.obj {}) ∧
    translateHooks (webpackPluginInit v) = [] ∧
    countTotalTasks (translateHooks (webpackPluginInit v)) = 0 ∧
    (webpackPluginInit v).options.getD {} = ({} : Opts) := by
  have hv : webpackPluginInit v = ({} : PluginOptions) := by
    cases v with
    | obj o => exact absurd h (by simp [isPlainObject])
    | _ => rfl
  refine ⟨hv, ?_, ?_, ?_, ?_⟩ <;> rw [hv] <;> rfl

/-- Witness for C9 at the argument `null`. -/
theorem C9_nonobject_constructor_defaults_witness :
    isPlainObject JSVal.jsNull = false ∧
    (webpackPluginInit JSVal.jsNull = ({} : PluginOptions) ∧
     webpackPluginInit JSVal.jsNull = webpackPluginInit (JSVal.obj {}) ∧
     translateHooks (webpackPluginInit JSVal.jsNull) = [] ∧
     countTotalTasks (translateHooks (webpackPluginInit JSVal.jsNull)) = 0 ∧
     (webpackPluginInit JSVal.jsNull).options.getD {} = ({} : Opts)) :=
  ⟨by decide, C9_nonobject_constructor_defaults JSVal.jsNull (by decide)⟩

/-- C10 counterexample: a recognized command whose batch entry lacks the
`options` field (but has items) is NOT skipped — the executor is called for
its item and the cache is written — refuting the claim that such an entry
is skipped without an executor call or cache write. -/
theorem C10_missing_options_counterexample :
    handleCommand behTrue [("copy", some { items? := some ["a"], options? := none })] {} [] =
      ([Ev.exec "copy" "a" {}], cacheSet [] "copy" (stringifyItems ["a"]), true) := by
  decide

/-- C10 amended: an entry that is null/undefined or lacks `items` is
defaulted to an empty item list (and empty options) and skipped without an
executor call, cache write or error; an entry lacking only `options` gets
empty options but its items still run. -/
theorem C10_defaulted_entry_skipped (beh : Beh) (g : Opts) (cache : Cache)
    (cmd : String) (entry : Option Entry) (rest : Batch)
    (hc : cmd ∈ COMMAND_LIST)
    (hentry : entry = none ∨ ∃ o, entry = some { items? := none, options? := o }) :
    handleCommand beh ((cmd, entry) :: rest) g cache = handleCommand beh rest g cache := by
  have hempty : entryItems entry = [] := by
    rcases hentry with h | ⟨o, h⟩ <;> subst h <;> rfl
  rw [handleCommand_cons, if_pos hc,
    if_pos ((shouldSkip_iff _ _ _ _).mpr (Or.inr hempty))]

/-- Witness for the amended C10 at a null entry for "copy". -/
theorem C10_defaulted_entry_skipped_witness :
    "copy" ∈ COMMAND_LIST ∧
    handleCommand behTrue [("copy", none)] {} [] = handleCommand behTrue [] {} [] :=
  ⟨by decide,
   C10_defaulted_entry_skipped behTrue {} [] "copy" none [] (by decide) (Or.inl rfl)⟩

/-- C1 counterexample: a per-command `parallel: 2` with no global
worker-count makes the MERGED options carry a positive worker-count, yet the
command is run sequentially (a single executor call, no delegation to the
parallel dispatcher) — refuting that the merged options decide the dispatch
path. -/
theorem C1_merged_parallel_counterexample :
    (mergeOpts {} { parallel := some 2 }).parallel = some 2 ∧
    (handleCommand behTrue
      [("copy", some { items? := some ["a"], options? := some { parallel := some 2 } })]
      {} []).1 = [Ev.exec "copy" "a" { parallel := some 2 }] ∧
    ((handleCommand behTrue
      [("copy", some { items? := some ["a"], options? := some { parallel := some 2 } })]
      {} []).1.filter (fun e => evIsCluster e)) = [] := by
  decide

/-- C1 amended: the dispatch path is decided by the GLOBAL `parallel` option
alone. When the global worker-count is truthy, the work of a recognized,
non-skipped command is delegated to the parallel dispatcher with the full
item list, the global worker-count and the command name; when it is falsy
the items are run sequentially (per-command `parallel` only flows into the
merged options passed along, it does not change the path). -/
theorem C1_global_parallel_decides_dispatch (beh : Beh) (g : Opts) (cache : Cache)
    (cmd : String) (entry : Option Entry) (rest : Batch)
    (hc : cmd ∈ COMMAND_LIST) (hns : shouldSkip cache g cmd entry = false) :
    (natTruthy g.parallel = true →
      ∃ tl, (handleCommand beh ((cmd, entry) :: rest) g cache).1 =
        Ev.cluster cmd (entryItems entry) (g.parallel.getD 0)
          (mergeOpts g (entryOptions entry)) :: tl) ∧
    (natTruthy g.parallel = false → (∀ i ∈ entryItems entry, beh cmd i = true) →
      ∃ tl, (handleCommand beh ((cmd, entry) :: rest) g cache).1 =
        (entryItems entry).map
          (fun i => Ev.exec cmd i (mergeOpts g (entryOptions entry))) ++ tl) := by
  constructor
  · intro hp
    obtain ⟨tl, htl⟩ := handleCommand_cons_unskipped_trace beh g cache cmd entry rest hc hns
    exact ⟨tl, by rw [htl, dispatchOne_par_trace beh g cmd entry cache hp]; rfl⟩
  · intro hp hall
    obtain ⟨tl, htl⟩ := handleCommand_cons_unskipped_trace beh g cache cmd entry rest hc hns
    refine ⟨tl, ?_⟩
    rw [htl, dispatchOne_seq_success beh g cmd entry cache hp hall]

/-- Witness for the amended C1, parallel side: global `parallel: 3`
delegates to the dispatcher with the full list, count 3 and the name. -/
theorem C1_global_parallel_decides_dispatch_witness :
    ("copy" ∈ COMMAND_LIST ∧
     shouldSkip [] { parallel := some 3 } "copy"
       (some { items? := some ["a", "b"], options? := none }) = false) ∧
    ((natTruthy (Opts.parallel { parallel := some 3 }) = true →
      ∃ tl, (handleCommand behTrue
        [("copy", some { items? := some ["a", "b"], options? := none })]
        { parallel := some 3 } []).1 =
          Ev.cluster "copy"
            (entryItems (some { items? := some ["a", "b"], options? := none })) 3
            (mergeOpts { parallel := some 3 }
              (entryOptions (some { items? := some ["a", "b"], options? := none }))) :: tl) ∧
     (natTruthy (Opts.parallel { parallel := some 3 }) = false →
      (∀ i ∈ entryItems (some { items? := some ["a", "b"], options? := none }),
        behTrue "copy" i = true) →
      ∃ tl, (handleCommand behTrue
        [("copy", some { items? := some ["a", "b"], options? := none })]
        { parallel := some 3 } []).1 =
          (entryItems (some { items? := some ["a", "b"], options? := none })).map
            (fun i => Ev.exec "copy" i
              (mergeOpts { parallel := some 3 }
                (entryOptions (some { items? := some ["a", "b"], options? := none })))) ++ tl)) :=
  ⟨⟨by decide, by decide⟩,
   C1_global_parallel_decides_dispatch behTrue { parallel := some 3 } [] "copy"
     (some { items? := some ["a", "b"], options? := none }) [] (by decide) (by decide)⟩

/-- C2: a recognized command is skipped — the run is exactly the run of the
remaining batch, with no executor call, no cache write and no progress
event — precisely when (the merged cache flag, default true, is on AND the
stored fingerprint equals the item list's serialization) OR the item list
is empty; the empty case skips regardless of the cache flag and cache
state, and when the condition fails the command's dispatch emits an event
of its own. -/
theorem C2_skip_condition (beh : Beh) (g : Opts) (cache : Cache) (cmd : String)
    (entry : Option Entry) (rest : Batch) (hc : cmd ∈ COMMAND_LIST) :
    ((((mergeOpts g (entryOptions entry)).cache.getD true = true ∧
        cacheGet cache cmd = some (stringifyItems (entryItems entry))) ∨
      entryItems entry = []) →
      handleCommand beh ((cmd, entry) :: rest) g cache = handleCommand beh rest g cache) ∧
    (entryItems entry = [] →
      handleCommand beh ((cmd, entry) :: rest) g cache = handleCommand beh rest g cache) ∧
    (¬(((mergeOpts g (entryOptions entry)).cache.getD true = true ∧
        cacheGet cache cmd = some (stringifyItems (entryItems entry))) ∨
      entryItems entry = []) →
      ∃ e tl, (handleCommand beh ((cmd, entry) :: rest) g cache).1 = e :: tl ∧
        evCmd e = cmd) := by
  refine ⟨?_, ?_, ?_⟩
  · intro hcond
    rw [handleCommand_cons, if_pos hc, if_pos ((shouldSkip_iff _ _ _ _).mpr hcond)]
  · intro hempty
    rw [handleCommand_cons, if_pos hc,
      if_pos ((shouldSkip_iff _ _ _ _).mpr (Or.inr hempty))]
  · intro hcond
    have hns : shouldSkip cache g cmd entry = false := by
      cases hsk : shouldSkip cache g cmd entry with
      | false => rfl
      | true => exact absurd ((shouldSkip_iff _ _ _ _).mp hsk) hcond
    have hne : entryItems entry ≠ [] := fun h => hcond (Or.inr h)
    obtain ⟨tl, htl⟩ := handleCommand_cons_unskipped_trace beh g cache cmd entry rest hc hns
    cases hp : natTruthy g.parallel with
    | true =>
      refine ⟨Ev.cluster cmd (entryItems entry) (g.parallel.getD 0)
        (mergeOpts g (entryOptions entry)), tl, ?_, rfl⟩
      rw [htl, dispatchOne_par_trace beh g cmd entry cache hp]
      rfl
    | false =>
      rcases hitems : entryItems entry with _ | ⟨i, items'⟩
      · exact absurd hitems hne
      · obtain ⟨tl2, htl2⟩ := runSeq_cons_head beh cmd (mergeOpts g (entryOptions entry)) i items'
        refine ⟨Ev.exec cmd i (mergeOpts g (entryOptions entry)), tl2 ++ tl, ?_, rfl⟩
        rw [htl, dispatchOne_seq_trace beh g cmd entry cache hp, hitems, htl2]
        rfl

/-- Witness for C2 at a cache hit for "copy". -/
theorem C2_skip_condition_witness :
    "copy" ∈ COMMAND_LIST ∧
    handleCommand behTrue
      [("copy", some { items? := some ["a"], options? := none })] {}
      (cacheSet [] "copy" (stringifyItems ["a"])) =
      handleCommand behTrue [] {} (cacheSet [] "copy" (stringifyItems ["a"])) :=
  ⟨by decide,
   (C2_skip_condition behTrue {} (cacheSet [] "copy" (stringifyItems ["a"])) "copy"
     (some { items? := some ["a"], options? := none }) [] (by decide)).1
     (Or.inl (by constructor <;> decide))⟩

/-- C5: for a command run without a worker-count (falsy global `parallel`)
against a cache with no entry for it, the executor is invoked once per item
and a trace-recording stub observes exactly the input order: the run's
trace starts with the item list mapped, in order, to executor calls. -/
theorem C5_sequential_order (beh : Beh) (g : Opts) (cache : Cache) (cmd : String)
    (items : List Item) (o : Option Opts) (rest : Batch)
    (hc : cmd ∈ COMMAND_LIST) (hp : natTruthy g.parallel = false)
    (hmiss : cacheGet cache cmd = none)
    (hall : ∀ i ∈ items, beh cmd i = true) :
    ∃ tl, (handleCommand beh
        ((cmd, some { items? := some items, options? := o }) :: rest) g cache).1 =
      items.map (fun i => Ev.exec cmd i (mergeOpts g (o.getD {}))) ++ tl := by
  have hitems : entryItems (some { items? := some items, options? := o }) = items := rfl
  have hopts : entryOptions (some { items? := some items, options? := o }) = o.getD {} := rfl
  rcases hi : items with _ | ⟨i0, items'⟩
  · refine ⟨(handleCommand beh rest g cache).1, ?_⟩
    have hempty : entryItems (some { items? := some ([] : List Item), options? := o }) = [] := rfl
    rw [handleCommand_cons, if_pos hc, if_pos ((shouldSkip_iff _ _ _ _).mpr
      (Or.inr hempty))]
    rfl
  · rw [← hi]
    have hns : shouldSkip cache g cmd (some { items? := some items, options? := o }) = false := by
      simp [shouldSkip, entryItems, entryOptions, hmiss, hi]
    obtain ⟨tl, htl⟩ := handleCommand_cons_unskipped_trace beh g cache cmd
      (some { items? := some items, options? := o }) rest hc hns
    refine ⟨tl, ?_⟩
    rw [htl, dispatchOne_seq_success beh g cmd _ cache hp (by rw [hitems]; exact hall)]
    rw [hitems, hopts]

/-- Witness for C5: three items of "copy" execute in input order. -/
theorem C5_sequential_order_witness :
    ("copy" ∈ COMMAND_LIST ∧ natTruthy (Opts.parallel {}) = false ∧
      cacheGet [] "copy" = none) ∧
    (∃ tl, (handleCommand behTrue
        [("copy", some { items? := some ["a", "b", "c"], options? := none })] {} []).1 =
      ["a", "b", "c"].map (fun i => Ev.exec "copy" i (mergeOpts {} (Option.getD none {}))) ++ tl) :=
  ⟨⟨by decide, by decide, by decide⟩,
   C5_sequential_order behTrue {} [] "copy" ["a", "b", "c"] none [] (by decide)
     (by decide) (by decide) (by intro i hi; rfl)⟩

/-- C3: for a recognized, non-skipped command, the cache entry is written to
the precomputed fingerprint only between a fully successful dispatch and the
processing of the rest of the batch — and on an executor failure nothing of
the sort happens: in sequential mode the items after the failing one are not
attempted, the cache is returned exactly as it was, the run ends in failure
and no later command of the batch contributes anything; likewise in parallel
mode when the dispatcher fails. -/
theorem C3_cache_after_success_failfast (beh : Beh) (g : Opts) (cache : Cache)
    (cmd : String) (entry : Option Entry) (rest : Batch)
    (hc : cmd ∈ COMMAND_LIST) (hns : shouldSkip cache g cmd entry = false) :
    ((∀ i ∈ entryItems entry, beh cmd i = true) →
      (handleCommand beh ((cmd, entry) :: rest) g cache).2 =
        (handleCommand beh rest g
          (if (mergeOpts g (entryOptions entry)).cache.getD true then
            cacheSet cache cmd (stringifyItems (entryItems entry)) else cache)).2) ∧
    (natTruthy g.parallel = false →
      ∀ pre bad post, entryItems entry = pre ++ bad :: post →
        (∀ i ∈ pre, beh cmd i = true) → beh cmd bad = false →
        handleCommand beh ((cmd, entry) :: rest) g cache =
          (pre.map (fun i => Ev.exec cmd i (mergeOpts g (entryOptions entry))) ++
            [Ev.exec cmd bad (mergeOpts g (entryOptions entry))], cache, false)) ∧
    (natTruthy g.parallel = true → (∃ i ∈ entryItems entry, beh cmd i = false) →
      handleCommand beh ((cmd, entry) :: rest) g cache =
        ([Ev.cluster cmd (entryItems entry) (g.parallel.getD 0)
            (mergeOpts g (entryOptions entry))], cache, false)) := by
  have hcons := handleCommand_cons beh g cache cmd entry rest
  rw [if_pos hc, if_neg (by rw [hns]; exact Bool.false_ne_true)] at hcons
  refine ⟨?_, ?_, ?_⟩
  · intro hall
    rw [hcons]
    cases hp : natTruthy g.parallel with
    | false =>
      rw [dispatchOne_seq_success beh g cmd entry cache hp hall]
      rfl
    | true =>
      rw [dispatchOne_par_success beh g cmd entry cache hp hall]
      rfl
  · intro hp pre bad post hitems hpre hbad
    rw [hcons, dispatchOne_seq_fail beh g cmd entry cache pre bad post hp hitems hpre hbad]
    rfl
  · intro hp hex
    rw [hcons, dispatchOne_par_fail beh g cmd entry cache hp hex]
    rfl

/-- Witness for C3: "copy" over [a, b, c] with the executor failing on b
stops after the failing call, leaves the cache empty, rejects, and the
pending "move" command never runs. -/
theorem C3_cache_after_success_failfast_witness :
    ("copy" ∈ COMMAND_LIST ∧
      shouldSkip [] {} "copy" (some { items? := some ["a", "b", "c"], options? := none }) = false) ∧
    handleCommand (fun _ i => i != "b")
      [("copy", some { items? := some ["a", "b", "c"], options? := none }),
       ("move", some { items? := some ["x"], options? := none })] {} [] =
      (["a"].map (fun i => Ev.exec "copy" i
          (mergeOpts {} (entryOptions (some { items? := some ["a", "b", "c"], options? := none })))) ++
        [Ev.exec "copy" "b"
          (mergeOpts {} (entryOptions (some { items? := some ["a", "b", "c"], options? := none })))],
       [], false) :=
  ⟨⟨by decide, by decide⟩,
   (C3_cache_after_success_failfast (fun _ i => i != "b") {} [] "copy"
      (some { items? := some ["a", "b", "c"], options? := none })
      [("move", some { items? := some ["x"], options? := none })]
      (by decide) (by decide)).2.1 (by decide) ["a"] "b" ["c"] rfl
      (by decide) (by decide)⟩

/-- C6: with progress tracking enabled, the webpack-plugin dispatch updates
progress by one after each completed item in sequential mode, and exactly
once per command — by the completed count returned from the dispatcher,
after the dispatcher returns — in parallel mode. -/
theorem C6_progress_accounting (beh : Beh) (g : Opts) (cmd : String)
    (entry : Entry) (rest : WpBatch)
    (hc : cmd ∈ COMMAND_LIST) (hprog : boolTruthy g.progress = true) :
    (natTruthy g.parallel = false → (∀ i ∈ entry.items?.getD [], beh cmd i = true) →
      ∃ tl, (wpHandleCommand beh g ((cmd, entry) :: rest)).1 =
        (entry.items?.getD []).flatMap
          (fun i => [Ev.exec cmd i (mergeOpts g (entry.options?.getD {})),
            Ev.progressInc 1]) ++ tl) ∧
    (natTruthy g.parallel = true → (∀ i ∈ entry.items?.getD [], beh cmd i = true) →
      ∃ tl, (wpHandleCommand beh g ((cmd, entry) :: rest)).1 =
        Ev.cluster cmd (entry.items?.getD []) (g.parallel.getD 0)
            (mergeOpts g (entry.options?.getD {})) ::
          Ev.progressInc (entry.items?.getD []).length :: tl) := by
  have hcons := wpHandleCommand_cons beh g cmd entry rest
  rw [if_pos hc] at hcons
  constructor
  · intro hp hall
    rw [hcons]
    dsimp only
    rw [hp, if_neg Bool.false_ne_true,
      wpRunSeq_all_true beh (boolTruthy g.progress) cmd _ _ hall, hprog]
    dsimp only
    rw [if_pos rfl]
    refine ⟨(wpHandleCommand beh g rest).1, ?_⟩
    dsimp only
    rw [if_pos rfl]
  · intro hp hall
    rw [hcons]
    dsimp only
    rw [hp, if_pos rfl]
    have hm : masterCluster beh (entry.items?.getD []) (g.parallel.getD 0) cmd
        (mergeOpts g (entry.options?.getD {})) = some (entry.items?.getD []).length := by
      unfold masterCluster
      rw [if_pos (List.all_eq_true.mpr hall)]
    rw [hm]
    dsimp only
    rw [hprog, if_pos rfl, if_pos rfl]
    exact ⟨(wpHandleCommand beh g rest).1, rfl⟩

/-- Witness for C6, sequential side with two items. -/
theorem C6_progress_accounting_witness :
    ("copy" ∈ COMMAND_LIST ∧
      boolTruthy (Opts.progress { progress := some true }) = true) ∧
    ((natTruthy (Opts.parallel { progress := some true }) = false →
      (∀ i ∈ Option.getD (some ["a", "b"]) [], behTrue "copy" i = true) →
      ∃ tl, (wpHandleCommand behTrue { progress := some true }
        [("copy", { items? := some ["a", "b"], options? := none })]).1 =
        (Option.getD (some ["a", "b"]) []).flatMap
          (fun i => [Ev.exec "copy" i (mergeOpts { progress := some true }
            (Option.getD (none : Option Opts) {})), Ev.progressInc 1]) ++ tl) ∧
     (natTruthy (Opts.parallel { progress := some true }) = true →
      (∀ i ∈ Option.getD (some ["a", "b"]) [], behTrue "copy" i = true) →
      ∃ tl, (wpHandleCommand behTrue { progress := some true }
        [("copy", { items? := some ["a", "b"], options? := none })]).1 =
        Ev.cluster "copy" (Option.getD (some ["a", "b"]) [])
            (Option.getD (Opts.parallel { progress := some true }) 0)
            (mergeOpts { progress := some true } (Option.getD (none : Option Opts) {})) ::
          Ev.progressInc (Option.getD (some ["a", "b"]) []).length :: tl)) :=
  ⟨⟨by decide, by decide⟩,
   C6_progress_accounting behTrue { progress := some true } "copy"
     { items? := some ["a", "b"], options? := none } [] (by decide) (by decide)⟩

/-- C7 counterexample: `countTotalTasks` does not consult the cache — a
recognized, supported command whose fingerprint is already cached (and which
the orchestrator therefore skips, executing nothing) still contributes its
item count to the total, so the total is 1 while the sum over non-skipped
commands described by the claim is 0. -/
theorem C7_cachehit_counted_counterexample :
    countTotalTasks
      [{ hookType := "tapAsync", hookName := "afterEmit",
         registerName := some "REGISTER_afterEmit",
         commands := [("copy", { items? := some ["a"], options? := none })] }] = 1 ∧
    claimNonSkippedTotal (cacheSet [] "copy" (stringifyItems ["a"])) {}
      [{ hookType := "tapAsync", hookName := "afterEmit",
         registerName := some "REGISTER_afterEmit",
         commands := [("copy", { items? := some ["a"], options? := none })] }] = 0 ∧
    (handleCommand behTrue [("copy", some { items? := some ["a"], options? := none })] {}
      (cacheSet [] "copy" (stringifyItems ["a"]))).1 = [] := by
  decide

/-- C7 amended: the total computed before execution is the sum of item
counts across ALL eligible commands — recognized names under hook items
whose hook type is supported — regardless of the cache state; empty item
lists and ineligible entries contribute zero. -/
theorem C7_total_counts_all_eligible (options : List HookItem) :
    countTotalTasks options =
      ((options.filter (fun h => h.hookType ∈ supportedHookTypes)).map (fun h =>
        ((h.commands.filter (fun ce => ce.1 ∈ COMMAND_LIST)).map
          (fun ce => (ce.2.items?.getD []).length)).sum)).sum := by
  have hcmds : ∀ wb : WpBatch, commandsTaskCount wb =
      ((wb.filter (fun ce => ce.1 ∈ COMMAND_LIST)).map
        (fun ce => (ce.2.items?.getD []).length)).sum := by
    intro wb
    induction wb with
    | nil => rfl
    | cons ce rest ih =>
      rcases ce with ⟨cmd, e⟩
      by_cases hcm : cmd ∈ COMMAND_LIST
      · rw [commandsTaskCount, if_pos hcm, ih, List.filter_cons_of_pos (by simpa),
          List.map_cons, List.sum_cons]
      · rw [commandsTaskCount, if_neg hcm, ih, List.filter_cons_of_neg (by simpa)]
        simp
  induction options with
  | nil => rfl
  | cons h rest ih =>
    by_cases hht : h.hookType ∈ supportedHookTypes
    · rw [countTotalTasks, if_pos hht, ih, hcmds,
        List.filter_cons_of_pos (by simpa), List.map_cons, List.sum_cons]
    · rw [countTotalTasks, if_neg hht, ih, List.filter_cons_of_neg (by simpa)]
      simp

/-- C4: idempotence under cache — when every recognized command's merged
cache flag is on, the batch keys are distinct (as JS object keys are) and a
run completes successfully, an immediately repeated run over the resulting
cache issues zero executor calls: its trace is empty. -/
theorem C4_idempotent_under_cache (beh : Beh) (b : Batch) (g : Opts) (cache : Cache)
    (hnodup : (b.map Prod.fst).Nodup)
    (hflags : ∀ p ∈ b, (mergeOpts g (entryOptions p.2)).cache.getD true = true)
    (hok : (handleCommand beh b g cache).2.2 = true) :
    (handleCommand beh b g (handleCommand beh b g cache).2.1).1 = [] := by
  have hpost := handleCommand_success_cached beh b g cache hnodup hflags hok
  have hskip : ∀ p ∈ b, p.1 ∈ COMMAND_LIST →
      shouldSkip (handleCommand beh b g cache).2.1 g p.1 p.2 = true := by
    intro p hp hpc
    rcases hpost p hp hpc with hempty | hhit
    · exact (shouldSkip_iff _ _ _ _).mpr (Or.inr hempty)
    · exact (shouldSkip_iff _ _ _ _).mpr (Or.inl ⟨hflags p hp, hhit⟩)
  rw [handleCommand_all_skip beh b g _ hskip]

/-- Witness for C4: a two-command batch re-run against the cache produced by
its first run issues no executor calls. -/
theorem C4_idempotent_under_cache_witness :
    (((([("copy", some { items? := some ["a"], options? := none }),
        ("zip", some { items? := some ["x", "y"], options? := none })] : Batch).map
          Prod.fst).Nodup) ∧
     (handleCommand behTrue
        [("copy", some { items? := some ["a"], options? := none }),
         ("zip", some { items? := some ["x", "y"], options? := none })] {} []).2.2 = true) ∧
    (handleCommand behTrue
      [("copy", some { items? := some ["a"], options? := none }),
       ("zip", some { items? := some ["x", "y"], options? := none })] {}
      (handleCommand behTrue
        [("copy", some { items? := some ["a"], options? := none }),
         ("zip", some { items? := some ["x", "y"], options? := none })] {} []).2.1).1 = [] :=
  ⟨⟨by decide, by decide⟩,
   C4_idempotent_under_cache behTrue
     [("copy", some { items? := some ["a"], options? := none }),
      ("zip", some { items? := some ["x", "y"], options? := none })] {} []
     (by decide) (by decide) (by decide)⟩

end FileManagerPlugin
